import Mathlib

/-!
Shallow embedding of the Media Acquisition & Transcode Job Pipeline of
`src/server.js` (Universal-Media-Extractor).

The embedding covers:
* the job registry (the mutable `jobs` object, keyed by job identifier),
* the working directory on disk, modelled as a finite map from path to an
  abstract content value (`Nat`),
* the `/api/download` submission handler (job-record creation and the
  format-selection expression handed to the external downloader),
* the `ytdlp.download(...)` progress / then / catch handlers, including the
  Stage 2 thumbnail-embed block, instrumented with an event trace so that
  ordering ("rename before the registry is marked completed") and
  invocation ("Stage 2 never runs") facts can be stated,
* the `/api/file/:jobId/:title` delivery-and-cleanup handler.

External-tool outcomes are parameters: Stage 1's resolution is a list of
output file paths (`filePaths`) or a rejection; the Stage 2 `spawnSync`
call is abstracted by a boolean `embedOk` saying whether it produced the
`_with_thumb` output file (with fresh content `embedContent`).  Filesystem
operations act on the in-memory map and are total: environmental failures
(permissions) are outside the model, matching the code's own treatment of
them as logged-and-ignored.
-/

/-- Job status enum: the `status` field of a job record takes exactly the
string values `downloading`, `completed`, `error` in the source. -/
inductive Status where
  | downloading
  | completed
  | error
  deriving DecidableEq, Repr, BEq

/-- The job record created at `jobs[jobId] = { status: 'downloading',
progress: '0%', file: null, customTag: namingTag, title }` (server.js:233).
`file` is `none` while the JS field is `null`. -/
structure JobRecord where
  status : Status
  progress : String
  file : Option String
  customTag : String
  title : String
  deriving DecidableEq, Repr, BEq

/-- The `jobs` object: a finite map from job identifier to record,
modelled as an association list with unique keys maintained by `jobsSet`. -/
abbrev Registry := List (String × JobRecord)

/-- `jobs[jobId]` read access: `some record` when present, `none` when the
key is absent (JS `undefined`). -/
def jobsLookup : Registry → String → Option JobRecord
  | [], _ => none
  | (k, v) :: rest, id => if k = id then some v else jobsLookup rest id

/-- `jobs[jobId] = record`: overwrite the binding if present, insert it
otherwise. -/
def jobsSet : Registry → String → JobRecord → Registry
  | [], id, j => [(id, j)]
  | (k, v) :: rest, id, j =>
      if k = id then (k, j) :: rest else (k, v) :: jobsSet rest id j

/-- `delete jobs[jobId]`: remove every binding of the key. -/
def jobsRemove : Registry → String → Registry
  | [], _ => []
  | (k, v) :: rest, id =>
      if k = id then jobsRemove rest id else (k, v) :: jobsRemove rest id

/-- The working directory: a finite map from file path to abstract file
content. -/
abbrev Fs := List (String × Nat)

/-- Content of a file, `none` when the path does not exist. -/
def fsLookup : Fs → String → Option Nat
  | [], _ => none
  | (k, v) :: rest, p => if k = p then some v else fsLookup rest p

/-- `fs.existsSync(p)`. -/
def fsExists (f : Fs) (p : String) : Bool :=
  (fsLookup f p).isSome

/-- Write (create or overwrite) a file, as ffmpeg's `-y` output does. -/
def fsSet : Fs → String → Nat → Fs
  | [], p, c => [(p, c)]
  | (k, v) :: rest, p, c =>
      if k = p then (k, c) :: rest else (k, v) :: fsSet rest p c

/-- `fs.unlinkSync(p)`. -/
def fsRemove : Fs → String → Fs
  | [], _ => []
  | (k, v) :: rest, p =>
      if k = p then fsRemove rest p else (k, v) :: fsRemove rest p

/-- `fs.renameSync(src, dst)`: move the content of `src` to `dst`. -/
def fsRename (f : Fs) (src dst : String) : Fs :=
  match fsLookup f src with
  | some c => fsSet (fsRemove f src) dst c
  | none => f

/-- Whole server state: the in-memory `jobs` registry plus the working
directory. -/
structure ServerState where
  jobs : Registry
  fs : Fs
  deriving DecidableEq, Repr, BEq

/-- `TEMP_DIR`, kept abstract; claims never depend on its concrete value. -/
def tempDir : String := "temp"

/-- `path.join(a, b)` for the simple relative names the pipeline uses. -/
def pathJoin (a b : String) : String := a ++ "/" ++ b

/-- Characters of the last `/`-separated component: the accumulator is
reset at each separator. -/
def basenameAux : List Char → List Char → List Char
  | [], acc => acc.reverse
  | c :: rest, acc =>
      if c = '/' then basenameAux rest [] else basenameAux rest (c :: acc)

/-- `path.basename(p)`: the last `/`-separated component. -/
def pathBasename (p : String) : String :=
  String.mk (basenameAux p.data [])

/-- Index of the last `'.'` in a character list, mirroring JS
`lastIndexOf('.')` (`none` for -1). -/
def lastDotIdx : List Char → Option Nat
  | [] => none
  | c :: rest =>
      match lastDotIdx rest with
      | some i => some (i + 1)
      | none => if c = '.' then some 0 else none

/-- `finalFile.substring(0, finalFile.lastIndexOf('.'))` (server.js:266):
everything strictly before the last dot; `""` when there is no dot (JS
`substring(0, -1)` clamps to the empty string). -/
def baseNameOf (s : String) : String :=
  match lastDotIdx s.data with
  | some i => String.mk (s.data.take i)
  | none => ""

/-- The hardcoded target container `const extension = 'mp4'`
(server.js:230). -/
def extension : String := "mp4"

/-- JS `s.endsWith(suff)`, computed structurally on the character lists. -/
def strEndsWith (s suff : String) : Bool :=
  Nat.ble suff.data.length s.data.length &&
    (s.data.drop (s.data.length - suff.data.length) == suff.data)

/-- `result.filePaths.find(p => p.endsWith('.' + extension)) ||
result.filePaths[0]` (server.js:265): the canonical Stage 1 artifact. -/
def selectArtifact (filePaths : List String) : String :=
  (filePaths.find? (fun p => strEndsWith p ("." ++ extension))).getD (filePaths.headD "")

/-- `possibleThumbs = [baseName + '.jpg', baseName + '.webp', baseName +
'.png']` (server.js:269). -/
def possibleThumbs (baseName : String) : List String :=
  [baseName ++ ".jpg", baseName ++ ".webp", baseName ++ ".png"]

/-- Observable actions of a job's pipeline, recorded in execution order so
that temporal claims (what happened before what) can be stated. -/
inductive Event where
  | spawnEmbed (src thumb out : String)
  | unlink (p : String)
  | rename (src dst : String)
  | setStatus (jobId : String) (st : Status)
  | setFile (jobId : String) (f : String)
  deriving DecidableEq, Repr, BEq

/-- Constructor test: is the event the Stage 2 ffmpeg embed invocation? -/
def isSpawnEv : Event → Bool
  | .spawnEmbed _ _ _ => true
  | _ => false

/-- Constructor test: is the event a file deletion? -/
def isUnlinkEv : Event → Bool
  | .unlink _ => true
  | _ => false

/-- Constructor test: is the event the temporary-to-final rename? -/
def isRenameEv : Event → Bool
  | .rename _ _ => true
  | _ => false

/-- Constructor test: is the event the registry update to `completed`? -/
def isCompletedEv : Event → Bool
  | .setStatus _ Status.completed => true
  | _ => false

/-- First index at which the predicate holds in a trace. -/
def eventIdx (p : Event → Bool) : List Event → Option Nat
  | [] => none
  | e :: es => if p e then some 0 else (eventIdx p es).map (· + 1)

/-- The Stage 2 thumbnail-embed block (server.js:268-300): probe for the
thumbnail, and if both it and the artifact exist, run the isolated ffmpeg
embed (`spawnSync`, abstracted by `embedOk` / `embedContent`); if the
`_with_thumb` output exists afterwards, delete the original artifact and
the thumbnail and rename the output onto the artifact's name.  Only the
filesystem is touched; the registry is not. -/
def embedPhase (fs0 : Fs) (finalFile baseName : String) (embedOk : Bool)
    (embedContent : Nat) : Fs × List Event :=
  match (possibleThumbs baseName).find? (fun f => fsExists fs0 f) with
  | some thumbFile =>
      if fsExists fs0 finalFile then
        let embeddedFile := baseName ++ "_with_thumb." ++ extension
        let fs1 := if embedOk then fsSet fs0 embeddedFile embedContent else fs0
        if fsExists fs1 embeddedFile then
          (fsRename (fsRemove (fsRemove fs1 finalFile) thumbFile) embeddedFile finalFile,
           [Event.spawnEmbed finalFile thumbFile embeddedFile,
            Event.unlink finalFile, Event.unlink thumbFile,
            Event.rename embeddedFile finalFile])
        else
          (fs1, [Event.spawnEmbed finalFile thumbFile embeddedFile])
      else (fs0, [])
  | none => (fs0, [])

/-- The `.then((result) => ...)` handler (server.js:263-308).  The guard
`result.filePaths && result.filePaths.length > 0` is `filePaths ≠ []`
(a missing `filePaths` is the empty list).  After the embed block, the
guarded registry write `if (jobs[jobId]) { status = 'completed'; file =
path.basename(finalFile) }` runs. -/
def thenHandler (jobId : String) (filePaths : List String) (embedOk : Bool)
    (embedContent : Nat) (s : ServerState) : ServerState × List Event :=
  if filePaths = [] then (s, [])
  else
    let finalFile := selectArtifact filePaths
    let fsev := embedPhase s.fs finalFile (baseNameOf finalFile) embedOk embedContent
    match jobsLookup s.jobs jobId with
    | some job =>
        let job1 := { job with status := Status.completed,
                               file := some (pathBasename finalFile) }
        ({ jobs := jobsSet s.jobs jobId job1, fs := fsev.1 },
         fsev.2 ++ [Event.setStatus jobId Status.completed,
                    Event.setFile jobId (pathBasename finalFile)])
    | none => ({ s with fs := fsev.1 }, fsev.2)

/-- The `.catch((err) => ...)` handler (server.js:309-312):
`if (jobs[jobId]) jobs[jobId].status = 'error'`. -/
def catchHandler (jobId : String) (s : ServerState) : ServerState × List Event :=
  match jobsLookup s.jobs jobId with
  | some job =>
      let job1 := { job with status := Status.error }
      ({ s with jobs := jobsSet s.jobs jobId job1 },
       [Event.setStatus jobId Status.error])
  | none => (s, [])

/-- The `.on('progress', (p) => ...)` handler (server.js:255-261):
`if (jobs[jobId]) jobs[jobId].progress = p.percentage_str || '0%'`; the
empty string stands for a falsy `percentage_str`. -/
def progressHandler (jobId : String) (percentageStr : String)
    (s : ServerState) : ServerState :=
  match jobsLookup s.jobs jobId with
  | some job =>
      let job1 := { job with progress := if percentageStr = "" then "0%" else percentageStr }
      { s with jobs := jobsSet s.jobs jobId job1 }
  | none => s

/-- Dispatch of the Stage 1 promise outcome: resolution runs the `.then`
handler (which contains the Stage 2 block), rejection runs the `.catch`
handler. -/
def runStage1Outcome (jobId : String) (outcome : Except Unit (List String))
    (embedOk : Bool) (embedContent : Nat) (s : ServerState) :
    ServerState × List Event :=
  match outcome with
  | .ok filePaths => thenHandler jobId filePaths embedOk embedContent s
  | .error _ => catchHandler jobId s

/-- One registry-touching operation of a job's pipeline, for stating the
status-monotonicity invariant over arbitrary operation sequences. -/
inductive PipelineOp where
  | progress (percentageStr : String)
  | stage1Resolve (filePaths : List String) (embedOk : Bool) (embedContent : Nat)
  | stage1Reject
  deriving Repr

/-- Apply one pipeline operation of the job `jobId` to the state. -/
def applyOp (jobId : String) (s : ServerState) : PipelineOp → ServerState
  | .progress p => progressHandler jobId p s
  | .stage1Resolve fp ok c => (thenHandler jobId fp ok c s).1
  | .stage1Reject => (catchHandler jobId s).1

/-- Apply a sequence of pipeline operations in order. -/
def applyOps (jobId : String) (ops : List PipelineOp) (s : ServerState) : ServerState :=
  ops.foldl (applyOp jobId) s

/-- `${vLabel || 'NoVideo'}_${aLabel || 'NoAudio'}` (server.js:231); the
empty string stands for a falsy (absent/empty) label. -/
def namingTag (vLabel aLabel : String) : String :=
  (if vLabel = "" then "NoVideo" else vLabel) ++ "_" ++
  (if aLabel = "" then "NoAudio" else aLabel)

/-- `(vId && aId) ? `vId+aId` : (vId || aId)` (server.js:238), with the
empty string standing for a falsy (absent/empty) stream identifier. -/
def formatSelection (vId aId : String) : String :=
  if vId ≠ "" ∧ aId ≠ "" then vId ++ "+" ++ aId
  else if vId ≠ "" then vId else aId

/-- What the `/api/download` handler hands outward: the `{ jobId }` JSON
response and the format expression passed to `.format(...)` on the
external downloader. -/
structure SubmitResponse where
  jobId : String
  format : String
  deriving DecidableEq, Repr

/-- The `/api/download` handler (server.js:226-315) up to spawning the
asynchronous download: create the job record, invoke the downloader with
the format-selection expression, respond with the job identifier.  There
is no server-side validation of the stream identifiers. -/
def submitDownload (jobId vId aId vLabel aLabel title : String)
    (s : ServerState) : ServerState × SubmitResponse :=
  let record : JobRecord :=
    { status := Status.downloading, progress := "0%", file := none,
      customTag := namingTag vLabel aLabel, title := title }
  ({ s with jobs := jobsSet s.jobs jobId record },
   { jobId := jobId, format := formatSelection vId aId })

/-- Response of the `/api/file/:jobId/:title` endpoint: the 400 "File not
ready" client error, or a `res.download` of the artifact path under the
derived filename. -/
inductive DeliverResponse where
  | badRequest
  | download (path filename : String)
  deriving DecidableEq, Repr

/-- One character of `title.replace(/[^a-z0-9]/gi, '_')` (server.js:328):
characters outside `[A-Za-z0-9]` become `'_'`. -/
def sanitizeChar (c : Char) : Char :=
  if ('a' ≤ c ∧ c ≤ 'z') ∨ ('A' ≤ c ∧ c ≤ 'Z') ∨ ('0' ≤ c ∧ c ≤ '9') then c else '_'

/-- The sanitized display title `safeTitle`. -/
def sanitizeTitle (t : String) : String :=
  String.mk (t.data.map sanitizeChar)

/-- The `/api/file/:jobId/:title` handler (server.js:323-351).  `err` is
the transmission outcome reported to the `res.download` callback (`true`
when the connection was interrupted); the code only logs it, so the
cleanup in the callback — delete the artifact if it still exists, then
`delete jobs[jobId]` — is the same in both cases. -/
def deliverFile (jobId title : String) (err : Bool) (s : ServerState) :
    ServerState × DeliverResponse :=
  match jobsLookup s.jobs jobId with
  | none => (s, DeliverResponse.badRequest)
  | some job =>
      if job.status ≠ Status.completed then (s, DeliverResponse.badRequest)
      else
        let filePath := pathJoin tempDir (job.file.getD "")
        let finalName := sanitizeTitle title ++ "_" ++ job.customTag ++ ".mp4"
        let fs1 := if fsExists s.fs filePath then fsRemove s.fs filePath else s.fs
        ({ jobs := jobsRemove s.jobs jobId, fs := fs1 },
         DeliverResponse.download filePath finalName)

/-! ### Map lemmas -/

theorem jobsLookup_jobsSet_self (r : Registry) (id : String) (j : JobRecord) :
    jobsLookup (jobsSet r id j) id = some j := by
  induction r with
  | nil => simp [jobsSet, jobsLookup]
  | cons kv rest ih =>
      obtain ⟨k, v⟩ := kv
      by_cases h : k = id
      · simp [jobsSet, jobsLookup, h]
      · simp [jobsSet, jobsLookup, h, ih]

theorem jobsLookup_jobsRemove_self (r : Registry) (id : String) :
    jobsLookup (jobsRemove r id) id = none := by
  induction r with
  | nil => simp [jobsRemove, jobsLookup]
  | cons kv rest ih =>
      obtain ⟨k, v⟩ := kv
      by_cases h : k = id
      · simp [jobsRemove, h, ih]
      · simp [jobsRemove, jobsLookup, h, ih]

theorem fsLookup_fsSet_self (f : Fs) (p : String) (c : Nat) :
    fsLookup (fsSet f p c) p = some c := by
  induction f with
  | nil => simp [fsSet, fsLookup]
  | cons kv rest ih =>
      obtain ⟨k, v⟩ := kv
      by_cases h : k = p
      · simp [fsSet, fsLookup, h]
      · simp [fsSet, fsLookup, h, ih]

theorem fsExists_fsSet_self (f : Fs) (p : String) (c : Nat) :
    fsExists (fsSet f p c) p = true := by
  simp [fsExists, fsLookup_fsSet_self]

theorem fsLookup_fsRemove_self (f : Fs) (p : String) :
    fsLookup (fsRemove f p) p = none := by
  induction f with
  | nil => simp [fsRemove, fsLookup]
  | cons kv rest ih =>
      obtain ⟨k, v⟩ := kv
      by_cases h : k = p
      · simp [fsRemove, h, ih]
      · simp [fsRemove, fsLookup, h, ih]

theorem fsLookup_fsRemove_ne (f : Fs) (p q : String) (h : q ≠ p) :
    fsLookup (fsRemove f p) q = fsLookup f q := by
  induction f with
  | nil => simp [fsRemove]
  | cons kv rest ih =>
      obtain ⟨k, v⟩ := kv
      by_cases hk : k = p
      · have hpq : p ≠ q := fun hh => h hh.symm
        simp [fsRemove, hk, ih, fsLookup, hpq]
      · simp [fsRemove, fsLookup, hk, ih]

/-! ### Concrete states for witnesses -/

/-- A completed job record, as left behind by a successful pipeline run. -/
def jobDone : JobRecord :=
  { status := Status.completed, progress := "100%", file := some "v.mp4",
    customTag := "FHD_HQ", title := "Demo" }

/-- A server state holding the completed job and its artifact on disk. -/
def stDone : ServerState :=
  { jobs := [("job1", jobDone)], fs := [(pathJoin tempDir "v.mp4", 7)] }

/-! ### Claims -/

/-- C1: a file-delivery request for a job that is absent from the registry
or not in `completed` status answers with the 400 client error and leaves
the whole state untouched; after one delivery attempt on a completed job
finishes, the record is removed, so a repeat request for the same job
identifier gets that same 400 — each job is delivered and cleaned up at
most once. -/
theorem spec_C1 (s : ServerState) (jobId title : String) (err : Bool) :
    ((∀ j, jobsLookup s.jobs jobId = some j → j.status ≠ Status.completed) →
        deliverFile jobId title err s = (s, DeliverResponse.badRequest))
    ∧ (∀ j, jobsLookup s.jobs jobId = some j → j.status = Status.completed →
        jobsLookup (deliverFile jobId title err s).1.jobs jobId = none
        ∧ ∀ t2 e2,
            deliverFile jobId t2 e2 (deliverFile jobId title err s).1 =
              ((deliverFile jobId title err s).1, DeliverResponse.badRequest)) := by
  constructor
  · intro h
    unfold deliverFile
    cases hl : jobsLookup s.jobs jobId with
    | none => simp
    | some j => simp [h j hl]
  · intro j hl hc
    have hd : deliverFile jobId title err s =
        ({ jobs := jobsRemove s.jobs jobId,
           fs := if fsExists s.fs (pathJoin tempDir (j.file.getD "")) then
                   fsRemove s.fs (pathJoin tempDir (j.file.getD "")) else s.fs },
         DeliverResponse.download (pathJoin tempDir (j.file.getD ""))
           (sanitizeTitle title ++ "_" ++ j.customTag ++ ".mp4")) := by
      unfold deliverFile
      rw [hl]
      simp [hc]
    constructor
    · rw [hd]
      exact jobsLookup_jobsRemove_self s.jobs jobId
    · intro t2 e2
      rw [hd]
      unfold deliverFile
      rw [jobsLookup_jobsRemove_self]

/-- C1 witness at a concrete completed job. -/
theorem spec_C1_witness :
    jobsLookup (deliverFile "job1" "Demo" false stDone).1.jobs "job1" = none
    ∧ deliverFile "job1" "t" true (deliverFile "job1" "Demo" false stDone).1 =
        ((deliverFile "job1" "Demo" false stDone).1, DeliverResponse.badRequest) := by
  have h := (spec_C1 stDone "job1" "Demo" false).2 jobDone (by decide) (by decide)
  exact ⟨h.1, h.2 "t" true⟩

/-- C2: for a delivery attempt on a completed job, whichever transmission
outcome `err` the `res.download` callback reports, the artifact file is
deleted from the working directory if still present (and nothing else is
touched on disk) and then the job record is removed from the registry —
the cleanup is unconditional in both outcomes. -/
theorem spec_C2 (s : ServerState) (jobId title : String) (j : JobRecord)
    (hl : jobsLookup s.jobs jobId = some j) (hc : j.status = Status.completed) :
    ∀ err : Bool,
      fsExists (deliverFile jobId title err s).1.fs (pathJoin tempDir (j.file.getD "")) = false
      ∧ (∀ q, q ≠ pathJoin tempDir (j.file.getD "") →
          fsLookup (deliverFile jobId title err s).1.fs q = fsLookup s.fs q)
      ∧ jobsLookup (deliverFile jobId title err s).1.jobs jobId = none := by
  intro err
  have hd : (deliverFile jobId title err s).1 =
      { jobs := jobsRemove s.jobs jobId,
        fs := if fsExists s.fs (pathJoin tempDir (j.file.getD "")) then
                fsRemove s.fs (pathJoin tempDir (j.file.getD "")) else s.fs } := by
    unfold deliverFile
    rw [hl]
    simp [hc]
  rw [hd]
  refine ⟨?_, ?_, jobsLookup_jobsRemove_self s.jobs jobId⟩
  · by_cases he : fsExists s.fs (pathJoin tempDir (j.file.getD "")) = true
    · rw [if_pos he]
      simp [fsExists, fsLookup_fsRemove_self]
    · rw [if_neg he]
      simpa using he
  · intro q hq
    by_cases he : fsExists s.fs (pathJoin tempDir (j.file.getD "")) = true
    · rw [if_pos he]
      exact fsLookup_fsRemove_ne _ _ _ hq
    · rw [if_neg he]

/-- C2 witness at a concrete completed job, interrupted transmission. -/
theorem spec_C2_witness :
    fsExists (deliverFile "job1" "Demo" true stDone).1.fs (pathJoin tempDir "v.mp4") = false
    ∧ fsLookup (deliverFile "job1" "Demo" true stDone).1.fs "other" = fsLookup stDone.fs "other"
    ∧ jobsLookup (deliverFile "job1" "Demo" true stDone).1.jobs "job1" = none := by
  have h := spec_C2 stDone "job1" "Demo" jobDone (by decide) (by decide) true
  exact ⟨h.1, h.2.1 "other" (by decide), h.2.2⟩

/-- One pipeline operation preserves "the job's status is not
`downloading`": progress writes only `progress`, Stage 1 resolution writes
`completed`, Stage 1 rejection writes `error`. -/
theorem applyOp_status_mono (jobId : String) (s : ServerState) (op : PipelineOp)
    (h : ∀ j, jobsLookup s.jobs jobId = some j → j.status ≠ Status.downloading) :
    ∀ j', jobsLookup (applyOp jobId s op).jobs jobId = some j' →
      j'.status ≠ Status.downloading := by
  cases op with
  | progress p =>
      intro j' hj'
      unfold applyOp progressHandler at hj'
      cases hl : jobsLookup s.jobs jobId with
      | none =>
          rw [hl] at hj'
          exact h j' hj'
      | some job =>
          rw [hl] at hj'
          dsimp only at hj'
          rw [jobsLookup_jobsSet_self] at hj'
          cases hj'
          exact h job hl
  | stage1Resolve fp ok c =>
      intro j' hj'
      unfold applyOp thenHandler at hj'
      dsimp only at hj'
      by_cases hfp : fp = []
      · rw [if_pos hfp] at hj'
        exact h j' hj'
      · rw [if_neg hfp] at hj'
        cases hl : jobsLookup s.jobs jobId with
        | none =>
            rw [hl] at hj'
            dsimp only at hj'
            exact h j' hj'
        | some job =>
            rw [hl] at hj'
            dsimp only at hj'
            rw [jobsLookup_jobsSet_self] at hj'
            cases hj'
            simp
  | stage1Reject =>
      intro j' hj'
      unfold applyOp catchHandler at hj'
      cases hl : jobsLookup s.jobs jobId with
      | none =>
          rw [hl] at hj'
          exact h j' hj'
      | some job =>
          rw [hl] at hj'
          dsimp only at hj'
          rw [jobsLookup_jobsSet_self] at hj'
          cases hj'
          simp

/-- C3: a job's status is monotonic — across any sequence of this job's
pipeline operations (progress callbacks, Stage 1 resolution with its Stage
2 post-step, Stage 1 rejection), once the record's status is `completed`
or `error` (that is, not `downloading`), it is never set back to
`downloading`. -/
theorem spec_C3 (jobId : String) (ops : List PipelineOp) (s : ServerState)
    (h : ∀ j, jobsLookup s.jobs jobId = some j → j.status ≠ Status.downloading) :
    ∀ j', jobsLookup (applyOps jobId ops s).jobs jobId = some j' →
      j'.status ≠ Status.downloading := by
  induction ops generalizing s with
  | nil => exact h
  | cons op rest ih =>
      intro j' hj'
      refine ih (applyOp jobId s op) (applyOp_status_mono jobId s op h) j' ?_
      simpa [applyOps, List.foldl] using hj'

/-- C3 witness: a completed job hit by a late progress callback and a late
rejection still never shows `downloading`. -/
theorem spec_C3_witness :
    ({ jobDone with progress := "50%", status := Status.error } : JobRecord).status
      ≠ Status.downloading := by
  refine spec_C3 "job1" [PipelineOp.progress "50%", PipelineOp.stage1Reject] stDone
    ?_ _ (by decide)
  intro j hj
  simp [stDone, jobsLookup, jobDone] at hj
  subst hj
  decide

/-- C4: when Stage 1 rejects, the job's registry status is set to `error`
(the record still existing) and the Stage 2 thumbnail-embed invocation
never happens — the trace contains no embed spawn. -/
theorem spec_C4 (s : ServerState) (jobId : String) (embedOk : Bool) (c : Nat)
    (j : JobRecord) (hj : jobsLookup s.jobs jobId = some j) :
    jobsLookup (runStage1Outcome jobId (Except.error ()) embedOk c s).1.jobs jobId
      = some ({ j with status := Status.error })
    ∧ (runStage1Outcome jobId (Except.error ()) embedOk c s).2.countP isSpawnEv = 0 := by
  have hc : runStage1Outcome jobId (Except.error ()) embedOk c s =
      ({ s with jobs := jobsSet s.jobs jobId ({ j with status := Status.error }) },
       [Event.setStatus jobId Status.error]) := by
    unfold runStage1Outcome catchHandler
    rw [hj]
  rw [hc]
  exact ⟨jobsLookup_jobsSet_self _ _ _, by simp [isSpawnEv]⟩

/-- A fresh downloading job, as created by submission. -/
def jobRun : JobRecord :=
  { status := Status.downloading, progress := "0%", file := none,
    customTag := "FHD_HQ", title := "Demo" }

/-- A server state with the fresh job and an empty working directory. -/
def stRun : ServerState := { jobs := [("job1", jobRun)], fs := [] }

/-- C4 witness at a concrete in-flight job. -/
theorem spec_C4_witness :
    jobsLookup (runStage1Outcome "job1" (Except.error ()) true 0 stRun).1.jobs "job1"
      = some ({ jobRun with status := Status.error })
    ∧ (runStage1Outcome "job1" (Except.error ()) true 0 stRun).2.countP isSpawnEv = 0 :=
  spec_C4 stRun "job1" true 0 jobRun (by decide)

/-- C9: registry updates for a job identifier no longer present are silent
no-ops — a stray progress callback, Stage 1 resolution, or Stage 1
rejection leaves the registry unchanged and does not resurrect the
record. -/
theorem spec_C9 (s : ServerState) (jobId p : String) (filePaths : List String)
    (embedOk : Bool) (c : Nat) (h : jobsLookup s.jobs jobId = none) :
    progressHandler jobId p s = s
    ∧ (thenHandler jobId filePaths embedOk c s).1.jobs = s.jobs
    ∧ (catchHandler jobId s).1 = s
    ∧ jobsLookup (thenHandler jobId filePaths embedOk c s).1.jobs jobId = none := by
  have hthen : (thenHandler jobId filePaths embedOk c s).1.jobs = s.jobs := by
    unfold thenHandler
    by_cases hfp : filePaths = []
    · rw [if_pos hfp]
    · rw [if_neg hfp]
      dsimp only
      rw [h]
  refine ⟨?_, hthen, ?_, ?_⟩
  · unfold progressHandler
    rw [h]
  · unfold catchHandler
    rw [h]
  · rw [hthen, h]

/-- C9 witness: callbacks for an identifier never in the registry. -/
theorem spec_C9_witness :
    progressHandler "ghost" "55%" stDone = stDone
    ∧ (thenHandler "ghost" ["temp/v.mp4"] true 5 stDone).1.jobs = stDone.jobs
    ∧ (catchHandler "ghost" stDone).1 = stDone
    ∧ jobsLookup (thenHandler "ghost" ["temp/v.mp4"] true 5 stDone).1.jobs "ghost" = none :=
  spec_C9 stDone "ghost" "55%" ["temp/v.mp4"] true 5 (by decide)

/-- The registry part of the `.then` handler: with a nonempty path list
and an existing record, the record becomes `completed` and carries the
basename of the canonical artifact, whatever the embed phase did. -/
theorem thenHandler_jobs (jobId : String) (filePaths : List String) (embedOk : Bool)
    (c : Nat) (s : ServerState) (j : JobRecord)
    (hps : filePaths ≠ []) (hj : jobsLookup s.jobs jobId = some j) :
    (thenHandler jobId filePaths embedOk c s).1.jobs =
      jobsSet s.jobs jobId
        ({ j with status := Status.completed,
                  file := some (pathBasename (selectArtifact filePaths)) }) := by
  unfold thenHandler
  rw [if_neg hps]
  dsimp only
  rw [hj]

/-- In each degraded path — no thumbnail found, artifact missing, or the
embed invocation producing no output file — the embed phase leaves the
working directory untouched. -/
theorem embedPhase_degraded (fs0 : Fs) (finalFile baseName : String)
    (embedOk : Bool) (c : Nat)
    (h : (possibleThumbs baseName).find? (fun f => fsExists fs0 f) = none
       ∨ fsExists fs0 finalFile = false
       ∨ (embedOk = false
          ∧ fsExists fs0 (baseName ++ "_with_thumb." ++ extension) = false)) :
    (embedPhase fs0 finalFile baseName embedOk c).1 = fs0 := by
  unfold embedPhase
  rcases h with h | h | ⟨h1, h2⟩
  · rw [h]
  · cases hf : (possibleThumbs baseName).find? (fun f => fsExists fs0 f) with
    | none => rfl
    | some t =>
        dsimp only
        rw [if_neg (by simp [h])]
  · cases hf : (possibleThumbs baseName).find? (fun f => fsExists fs0 f) with
    | none => rfl
    | some t =>
        subst h1
        by_cases hff : fsExists fs0 finalFile = true
        · simp [hff, h2]
        · simp [hff]

/-- In the replacement branch — a thumbnail found, the artifact present,
and the embed invocation producing its output — the embed phase performs
exactly: spawn, unlink the original, unlink the thumbnail, rename the
temporary output onto the original name. -/
theorem embedPhase_replace (fs0 : Fs) (finalFile baseName thumbFile : String) (c : Nat)
    (hthumb : (possibleThumbs baseName).find? (fun f => fsExists fs0 f) = some thumbFile)
    (hfile : fsExists fs0 finalFile = true) :
    embedPhase fs0 finalFile baseName true c =
      (fsRename
         (fsRemove (fsRemove (fsSet fs0 (baseName ++ "_with_thumb." ++ extension) c)
            finalFile) thumbFile)
         (baseName ++ "_with_thumb." ++ extension) finalFile,
       [Event.spawnEmbed finalFile thumbFile (baseName ++ "_with_thumb." ++ extension),
        Event.unlink finalFile, Event.unlink thumbFile,
        Event.rename (baseName ++ "_with_thumb." ++ extension) finalFile]) := by
  unfold embedPhase
  rw [hthumb]
  dsimp only
  rw [if_pos hfile]
  rw [if_pos (show (true = true) from rfl)]
  rw [if_pos (fsExists_fsSet_self fs0 (baseName ++ "_with_thumb." ++ extension) c)]

/-- C5: when Stage 2 replaces the artifact, the trace of the job's `.then`
handler deletes the original artifact and the thumbnail and renames the
temporary output strictly before the registry is updated to `completed`:
the rename event's index precedes the completed event's index, and both
unlink events lie before the completed event. -/
theorem spec_C5 (s : ServerState) (jobId : String) (filePaths : List String)
    (c : Nat) (j : JobRecord) (thumbFile : String)
    (hps : filePaths ≠ [])
    (hthumb : (possibleThumbs (baseNameOf (selectArtifact filePaths))).find?
        (fun f => fsExists s.fs f) = some thumbFile)
    (hfile : fsExists s.fs (selectArtifact filePaths) = true)
    (hj : jobsLookup s.jobs jobId = some j) :
    (eventIdx isRenameEv (thenHandler jobId filePaths true c s).2).isSome = true
    ∧ (eventIdx isCompletedEv (thenHandler jobId filePaths true c s).2).isSome = true
    ∧ (eventIdx isRenameEv (thenHandler jobId filePaths true c s).2).getD 0 <
        (eventIdx isCompletedEv (thenHandler jobId filePaths true c s).2).getD 0
    ∧ ((thenHandler jobId filePaths true c s).2.take
        ((eventIdx isCompletedEv (thenHandler jobId filePaths true c s).2).getD 0)).countP
          isUnlinkEv = 2 := by
  have htr : (thenHandler jobId filePaths true c s).2 =
      [Event.spawnEmbed (selectArtifact filePaths) thumbFile
         (baseNameOf (selectArtifact filePaths) ++ "_with_thumb." ++ extension),
       Event.unlink (selectArtifact filePaths), Event.unlink thumbFile,
       Event.rename (baseNameOf (selectArtifact filePaths) ++ "_with_thumb." ++ extension)
         (selectArtifact filePaths),
       Event.setStatus jobId Status.completed,
       Event.setFile jobId (pathBasename (selectArtifact filePaths))] := by
    unfold thenHandler
    rw [if_neg hps]
    dsimp only
    rw [hj, embedPhase_replace s.fs _ _ thumbFile c hthumb hfile]
    rfl
  rw [htr]
  refine ⟨?_, ?_, ?_, ?_⟩
  · simp [eventIdx, isRenameEv]
  · simp [eventIdx, isCompletedEv]
  · simp [eventIdx, isRenameEv, isCompletedEv]
  · simp [eventIdx, isCompletedEv, isUnlinkEv]

/-- A server state where Stage 1 left both the artifact and a converted
thumbnail in the working directory. -/
def stThumb : ServerState :=
  { jobs := [("job1", jobRun)],
    fs := [("temp/v.mp4", 1), ("temp/v.jpg", 2)] }

/-- C5 witness on a concrete replacement run. -/
theorem spec_C5_witness :
    (eventIdx isRenameEv (thenHandler "job1" ["temp/v.mp4"] true 9 stThumb).2).isSome = true
    ∧ (eventIdx isCompletedEv (thenHandler "job1" ["temp/v.mp4"] true 9 stThumb).2).isSome = true
    ∧ (eventIdx isRenameEv (thenHandler "job1" ["temp/v.mp4"] true 9 stThumb).2).getD 0 <
        (eventIdx isCompletedEv (thenHandler "job1" ["temp/v.mp4"] true 9 stThumb).2).getD 0
    ∧ ((thenHandler "job1" ["temp/v.mp4"] true 9 stThumb).2.take
        ((eventIdx isCompletedEv (thenHandler "job1" ["temp/v.mp4"] true 9 stThumb).2).getD 0)).countP
          isUnlinkEv = 2 :=
  spec_C5 stThumb "job1" ["temp/v.mp4"] 9 jobRun "temp/v.jpg"
    (by decide) (by decide) (by decide) (by decide)

/-- C6: whenever Stage 1 resolves with a nonempty path list and the job
record still exists, the canonical artifact is the first returned path
ending in `.mp4` (the first path when none does), and the handler sets the
record to `status = completed` with `file` the basename of that
artifact. -/
theorem spec_C6 (s : ServerState) (jobId : String) (filePaths : List String)
    (embedOk : Bool) (c : Nat) (j : JobRecord)
    (hps : filePaths ≠ []) (hj : jobsLookup s.jobs jobId = some j) :
    jobsLookup (thenHandler jobId filePaths embedOk c s).1.jobs jobId
      = some ({ j with status := Status.completed,
                       file := some (pathBasename (selectArtifact filePaths)) })
    ∧ (∀ q, filePaths.find? (fun p => strEndsWith p ("." ++ extension)) = some q →
        selectArtifact filePaths = q)
    ∧ (filePaths.find? (fun p => strEndsWith p ("." ++ extension)) = none →
        selectArtifact filePaths = filePaths.headD "") := by
  refine ⟨?_, ?_, ?_⟩
  · rw [thenHandler_jobs jobId filePaths embedOk c s j hps hj]
    exact jobsLookup_jobsSet_self _ _ _
  · intro q hq
    unfold selectArtifact
    rw [hq]
    rfl
  · intro hq
    unfold selectArtifact
    rw [hq]
    rfl

/-- C6 witness: one run where the `.mp4` path is selected, one where no
path matches and the first is used. -/
theorem spec_C6_witness :
    jobsLookup (thenHandler "job1" ["temp/v.mp4"] false 0 stRun).1.jobs "job1"
      = some ({ jobRun with status := Status.completed, file := some "v.mp4" })
    ∧ selectArtifact ["temp/v.webm", "temp/v.mp4"] = "temp/v.mp4"
    ∧ selectArtifact ["temp/a.webm"] = "temp/a.webm" := by
  have h := spec_C6 stRun "job1" ["temp/v.mp4"] false 0 jobRun (by decide) (by decide)
  have h2 := spec_C6 stRun "job1" ["temp/v.webm", "temp/v.mp4"] false 0 jobRun
    (by decide) (by decide)
  have h3 := spec_C6 stRun "job1" ["temp/a.webm"] false 0 jobRun (by decide) (by decide)
  exact ⟨h.1, h2.2.1 "temp/v.mp4" (by decide), h3.2.2 (by decide)⟩

/-- C7: thumbnail embedding is best-effort and never fatal — if no
thumbnail is found at any probed extension, or the artifact file is
missing, or the embed invocation produces no output, the working directory
is left exactly as Stage 1 left it (the artifact untouched) and the job
still reaches `completed` with Stage 1's artifact recorded. -/
theorem spec_C7 (s : ServerState) (jobId : String) (filePaths : List String)
    (embedOk : Bool) (c : Nat) (j : JobRecord)
    (hps : filePaths ≠ []) (hj : jobsLookup s.jobs jobId = some j)
    (hdeg : (possibleThumbs (baseNameOf (selectArtifact filePaths))).find?
          (fun f => fsExists s.fs f) = none
        ∨ fsExists s.fs (selectArtifact filePaths) = false
        ∨ (embedOk = false
           ∧ fsExists s.fs (baseNameOf (selectArtifact filePaths) ++ "_with_thumb." ++
               extension) = false)) :
    (thenHandler jobId filePaths embedOk c s).1.fs = s.fs
    ∧ jobsLookup (thenHandler jobId filePaths embedOk c s).1.jobs jobId
        = some ({ j with status := Status.completed,
                         file := some (pathBasename (selectArtifact filePaths)) }) := by
  constructor
  · have hfs : (thenHandler jobId filePaths embedOk c s).1.fs =
        (embedPhase s.fs (selectArtifact filePaths) (baseNameOf (selectArtifact filePaths))
          embedOk c).1 := by
      unfold thenHandler
      rw [if_neg hps]
      dsimp only
      cases hl : jobsLookup s.jobs jobId with
      | none => rfl
      | some job => rfl
    rw [hfs]
    exact embedPhase_degraded s.fs _ _ embedOk c hdeg
  · rw [thenHandler_jobs jobId filePaths embedOk c s j hps hj]
    exact jobsLookup_jobsSet_self _ _ _

/-- C7 witness: no thumbnail on disk, embed skipped, job still completed
and the directory untouched. -/
theorem spec_C7_witness :
    (thenHandler "job1" ["temp/v.mp4"] true 3 stRun).1.fs = stRun.fs
    ∧ jobsLookup (thenHandler "job1" ["temp/v.mp4"] true 3 stRun).1.jobs "job1"
        = some ({ jobRun with status := Status.completed, file := some "v.mp4" }) :=
  spec_C7 stRun "job1" ["temp/v.mp4"] true 3 jobRun (by decide) (by decide)
    (Or.inl (by decide))

/-- C8: the format-selection expression is `<video>+<audio>` when both
stream identifiers are non-empty and the single non-empty one when exactly
one is given; with both empty the submission is still accepted — the job
record is created, the job identifier is returned — and the downloader is
invoked with the empty format expression, with no server-side
rejection. -/
theorem spec_C8 (vId aId jobId vLabel aLabel title : String) (s : ServerState) :
    ((vId ≠ "" ∧ aId ≠ "") →
        (submitDownload jobId vId aId vLabel aLabel title s).2.format = vId ++ "+" ++ aId)
    ∧ ((vId ≠ "" ∧ aId = "") →
        (submitDownload jobId vId aId vLabel aLabel title s).2.format = vId)
    ∧ ((vId = "" ∧ aId ≠ "") →
        (submitDownload jobId vId aId vLabel aLabel title s).2.format = aId)
    ∧ ((vId = "" ∧ aId = "") →
        (submitDownload jobId vId aId vLabel aLabel title s).2.format = ""
        ∧ (submitDownload jobId vId aId vLabel aLabel title s).2.jobId = jobId
        ∧ jobsLookup (submitDownload jobId vId aId vLabel aLabel title s).1.jobs jobId
            = some { status := Status.downloading, progress := "0%", file := none,
                     customTag := namingTag vLabel aLabel, title := title }) := by
  refine ⟨?_, ?_, ?_, ?_⟩
  · rintro ⟨hv, ha⟩
    simp [submitDownload, formatSelection, hv, ha]
  · rintro ⟨hv, ha⟩
    simp [submitDownload, formatSelection, hv, ha]
  · rintro ⟨hv, ha⟩
    simp [submitDownload, formatSelection, hv, ha]
  · rintro ⟨hv, ha⟩
    refine ⟨?_, rfl, ?_⟩
    · simp [submitDownload, formatSelection, hv, ha]
    · simp only [submitDownload]
      exact jobsLookup_jobsSet_self _ _ _

/-- C8 witness: both streams, video only, audio only, and the permissive
both-empty submission. -/
theorem spec_C8_witness :
    (submitDownload "j1" "137" "140" "FHD" "HQ" "Demo" stRun).2.format = "137+140"
    ∧ (submitDownload "j2" "137" "" "FHD" "" "Demo" stRun).2.format = "137"
    ∧ (submitDownload "j3" "" "140" "" "HQ" "Demo" stRun).2.format = "140"
    ∧ ((submitDownload "j4" "" "" "" "" "Demo" stRun).2.format = ""
       ∧ (submitDownload "j4" "" "" "" "" "Demo" stRun).2.jobId = "j4"
       ∧ jobsLookup (submitDownload "j4" "" "" "" "" "Demo" stRun).1.jobs "j4"
           = some { status := Status.downloading, progress := "0%", file := none,
                    customTag := namingTag "" "", title := "Demo" }) := by
  refine ⟨?_, ?_, ?_, ?_⟩
  · exact (spec_C8 "137" "140" "j1" "FHD" "HQ" "Demo" stRun).1 ⟨by decide, by decide⟩
  · exact (spec_C8 "137" "" "j2" "FHD" "" "Demo" stRun).2.1 ⟨by decide, rfl⟩
  · exact (spec_C8 "" "140" "j3" "" "HQ" "Demo" stRun).2.2.1 ⟨rfl, by decide⟩
  · exact (spec_C8 "" "" "j4" "" "" "Demo" stRun).2.2.2 ⟨rfl, rfl⟩

/-- C10: a successful delivery's filename is the caller's display title
with every character outside `[A-Za-z0-9]` replaced by an underscore,
then `_`, then the job's `customTag` — `<videoLabel>_<audioLabel>` with
`NoVideo`/`NoAudio` defaults for a skipped stream — then the fixed
container extension `.mp4`. -/
theorem spec_C10 (s : ServerState) (jobId reqTitle vLabel aLabel : String)
    (err : Bool) (j : JobRecord)
    (hj : jobsLookup s.jobs jobId = some j) (hc : j.status = Status.completed)
    (htag : j.customTag = namingTag vLabel aLabel) :
    (deliverFile jobId reqTitle err s).2 =
      DeliverResponse.download (pathJoin tempDir (j.file.getD ""))
        (String.mk (reqTitle.data.map sanitizeChar) ++ "_" ++
         ((if vLabel = "" then "NoVideo" else vLabel) ++ "_" ++
          (if aLabel = "" then "NoAudio" else aLabel)) ++ ".mp4") := by
  have hd : (deliverFile jobId reqTitle err s).2 =
      DeliverResponse.download (pathJoin tempDir (j.file.getD ""))
        (sanitizeTitle reqTitle ++ "_" ++ j.customTag ++ ".mp4") := by
    unfold deliverFile
    rw [hj]
    simp [hc]
  rw [hd, htag]
  rfl

/-- C10 witness: title `Demo` with labels `FHD`/`HQ` delivers
`Demo_FHD_HQ.mp4`. -/
theorem spec_C10_witness :
    (deliverFile "job1" "Demo" false stDone).2 =
      DeliverResponse.download (pathJoin tempDir "v.mp4") "Demo_FHD_HQ.mp4" := by
  have h := spec_C10 stDone "job1" "Demo" "FHD" "HQ" false jobDone
    (by decide) (by decide) (by decide)
  exact h
